import Mathlib

/-!
Shallow embedding of the `cli_farm` core (src/farm.rs and src/util.rs).

Modelling conventions:
- Rust `f64` money values are modelled as `ℚ`. Every money constant in the
  catalog is a small dyadic rational (prices, the 0.5 multiplier, payouts),
  and all arithmetic the claims touch stays well inside the 53-bit mantissa
  of `f64`, where `f64` addition, subtraction, multiplication and `powi`
  are exact; so `ℚ` arithmetic agrees with the source on these values.
- Rust `u128` timestamps/durations are modelled as `ℕ`. `checked_sub(..)
  .unwrap_or(0)` is Nat truncated subtraction.
- Rust `u8` levels are modelled as `ℕ`; `level_up` only increments below
  `get_max_level ≤ 20`, far from the `u8` bound.
- In-place mutation (`&mut self`) becomes explicit state passing: a fallible
  method on `Field` returns `Except GameError Field`, and a `Farm` operation
  returns the pair of the `Result` and the post-call `Farm` state (the state
  component also records the effects left behind by a failing call).
- `util::timestamp()` (a read of the wall clock inside `Farm::plant_field`
  and `Field::farm`) becomes an explicit `now : ℕ` parameter holding the
  value that clock read returns during the call.
-/

namespace CliFarm

/-- Error enum from src/util.rs (`GameError`). -/
inductive GameError where
  | InsufficientFunds
  | MaxLevelReached
  | OutOfBounds
  | AlreadyPlanted
  | AlreadyFarmed
  | NotYetReady
  | TooManyFields
deriving DecidableEq, Repr

/-- Money (Rust `f64`), modelled exactly as a rational. -/
abbrev Money : Type := ℚ

/-- Level (Rust `u8`). -/
abbrev Level : Type := ℕ

/-- Conversion from src/util.rs (`seconds_to_millis`). -/
def seconds_to_millis (seconds : ℕ) : ℕ := seconds * 1000

/-- Crop kinds from src/farm.rs (`enum Crop`). -/
inductive Crop where
  | Wheat
  | Potato
  | Carrot
deriving DecidableEq, Repr

namespace Crop

/-- Price to acquire a new field (`Crop::get_new_field_price`). -/
def get_new_field_price : Crop → Money
  | Wheat => 10
  | Potato => 100
  | Carrot => 1000

/-- Price paid each planting (`Crop::get_planting_price`). -/
def get_planting_price : Crop → Money
  | Wheat => 1
  | Potato => 20
  | Carrot => 50

/-- Level cap per crop (`Crop::get_max_level`). -/
def get_max_level : Crop → ℕ
  | Wheat => 5
  | Potato => 10
  | Carrot => 20

/-- Scalar used by pricing and earnings (`Crop::level_multiplier`, 0.5). -/
def level_multiplier (_ : Crop) : ℚ := 1/2

/-- Growth duration in milliseconds (`Crop::grow_time`). -/
def grow_time (c : Crop) : ℕ :=
  seconds_to_millis (match c with
    | Wheat => 100
    | Potato => 300
    | Carrot => 1000)

/-- Base payout (`Crop::payout`). -/
def payout : Crop → Money
  | Wheat => 1
  | Potato => 10
  | Carrot => 100

/-- Price of the next level (`Crop::get_next_level_price`). -/
def get_next_level_price (c : Crop) (level : ℕ) : Money :=
  let base_price := c.get_planting_price * 10
  let level_multiplier := c.level_multiplier / 2
  let price := base_price * (level_multiplier * (level : ℚ))
  price

end Crop

/-- A plot bound to one crop (struct `Field` in src/farm.rs). -/
structure Field where
  crop : Crop
  level : ℕ
  plant_timestamp : Option ℕ
deriving DecidableEq, Repr

namespace Field

/-- Fresh field (`Field::new`): level 1, unplanted. -/
def new (crop : Crop) : Field :=
  { crop := crop, level := 1, plant_timestamp := none }

/-- Acquisition price of a field (`Field::calculate_price`). -/
def calculate_price (crop : Crop) : Money :=
  crop.get_new_field_price

/-- Price of the next level-up, or `MaxLevelReached` (`Field::level_up_price`). -/
def level_up_price (f : Field) : Except GameError Money :=
  if f.crop.get_max_level ≤ f.level then .error .MaxLevelReached
  else .ok (f.crop.get_next_level_price f.level)

/-- Increment the level, or `MaxLevelReached` (`Field::level_up`). -/
def level_up (f : Field) : Except GameError Field :=
  if f.crop.get_max_level ≤ f.level then .error .MaxLevelReached
  else .ok { f with level := f.level + 1 }

/-- Whether the field is currently growing (`Field::planted`). -/
def planted (f : Field) : Bool :=
  f.plant_timestamp.isSome

/-- Record the planting time, or `AlreadyPlanted` (`Field::plant`). -/
def plant (f : Field) (timestamp : ℕ) : Except GameError Field :=
  if f.planted then .error .AlreadyPlanted
  else .ok { f with plant_timestamp := some timestamp }

/-- Remaining wait in milliseconds (`Field::time_to_farm`). The source
unwraps `plant_timestamp` (only called while planted); here the absent case
defaults to 0. `checked_sub(..).unwrap_or(0)` is Nat truncated subtraction. -/
def time_to_farm (f : Field) (timestamp : ℕ) : ℕ :=
  f.crop.grow_time - (timestamp - f.plant_timestamp.getD 0)

/-- Harvest transition (`Field::farm`). `now` is the value returned by the
`util::timestamp()` call the source makes inside this method. -/
def farm (f : Field) (now : ℕ) : Except GameError Field :=
  if !f.planted then .error .AlreadyFarmed
  else if f.time_to_farm now > 0 then .error .NotYetReady
  else .ok { f with plant_timestamp := none }

/-- Harvest value at the current level (`Field::earnings`). -/
def earnings (f : Field) : Money :=
  let payout := f.crop.payout
  payout * (1 + f.crop.level_multiplier) ^ f.level

end Field

/-- The aggregate root (struct `Farm` in src/farm.rs). -/
structure Farm where
  name : String
  money : ℚ
  fields : List Field
deriving DecidableEq, Repr

namespace Farm

/-- Fresh farm (`Farm::new`): 20 money, no fields. -/
def new (name : String) : Farm :=
  { name := name, money := 20, fields := [] }

/-- The crop catalog in declaration order (`Farm::available_crops`). -/
def available_crops : List Crop :=
  [.Wheat, .Potato, .Carrot]

/-- Buy a field (`Farm::buy_field`): funds check, then append and debit. -/
def buy_field (s : Farm) (crop : Crop) : Except GameError Unit × Farm :=
  let price := crop.get_new_field_price
  if s.money < price then (.error .InsufficientFunds, s)
  else (.ok (), { s with fields := s.fields ++ [Field.new crop],
                         money := s.money - price })

/-- Level up a field (`Farm::level_up_field`). The source calls
`level_up_price` twice; both calls are pure and return the same value, so a
single `price` stands for both. -/
def level_up_field (s : Farm) (id : ℕ) : Except GameError Unit × Farm :=
  match s.fields[id]? with
  | none => (.error .OutOfBounds, s)
  | some field =>
    match field.level_up_price with
    | .error e => (.error e, s)
    | .ok price =>
      if s.money < price then (.error .InsufficientFunds, s)
      else
        match field.level_up with
        | .error e => (.error e, s)
        | .ok field' =>
          (.ok (), { s with fields := s.fields.set id field',
                            money := s.money - price })

/-- Plant a field (`Farm::plant_field`). `now` is the value returned by the
`util::timestamp()` call the source makes inside this method. The source
debits the planting price BEFORE calling `Field::plant`, so a failing plant
leaves the debit in place. -/
def plant_field (s : Farm) (id : ℕ) (now : ℕ) : Except GameError Unit × Farm :=
  match s.fields[id]? with
  | none => (.error .OutOfBounds, s)
  | some field =>
    if s.money < field.crop.get_planting_price then (.error .InsufficientFunds, s)
    else
      let s' := { s with money := s.money - field.crop.get_planting_price }
      match field.plant now with
      | .error e => (.error e, s')
      | .ok field' => (.ok (), { s' with fields := s'.fields.set id field' })

/-- Harvest a field (`Farm::farm_field`). `now` is the value returned by the
`util::timestamp()` call made inside `Field::farm`. The source computes the
payout from the already-reset field. -/
def farm_field (s : Farm) (id : ℕ) (now : ℕ) : Except GameError Money × Farm :=
  match s.fields[id]? with
  | none => (.error .OutOfBounds, s)
  | some field =>
    match field.farm now with
    | .error e => (.error e, s)
    | .ok field' =>
      let payout := field'.earnings
      (.ok payout, { s with money := s.money + payout,
                            fields := s.fields.set id field' })

end Farm

/-- A player-facing mutating operation, for reasoning about sequences of
calls into the `Farm` aggregate. Timing-sensitive operations carry the value
returned by the clock read made during the call. -/
inductive Op where
  | buy (crop : Crop)
  | plant (id : ℕ) (now : ℕ)
  | harvest (id : ℕ) (now : ℕ)
  | levelUp (id : ℕ)
deriving DecidableEq, Repr

/-- The farm state left behind by one operation (success or failure). -/
def apply_op (s : Farm) : Op → Farm
  | .buy crop => (s.buy_field crop).2
  | .plant id now => (s.plant_field id now).2
  | .harvest id now => (s.farm_field id now).2
  | .levelUp id => (s.level_up_field id).2

/-- The farm state after a sequence of operations. -/
def run_ops (s : Farm) : List Op → Farm
  | [] => s
  | op :: ops => run_ops (apply_op s op) ops

/-- The farm state after `k` consecutive `level_up_field` calls on field
`id` (a failing call leaves its state unchanged). -/
def level_up_iter (s : Farm) (id : ℕ) : ℕ → Farm
  | 0 => s
  | k + 1 => (Farm.level_up_field (level_up_iter s id k) id).2

/-- Total price of `k` consecutive level-ups starting from level `lev`. -/
def level_up_cost (c : Crop) (lev : ℕ) : ℕ → ℚ
  | 0 => 0
  | k + 1 => c.get_next_level_price lev + level_up_cost c (lev + 1) k

/-! Theorems. -/

/-- Writing back the element already stored at an index is a no-op. -/
lemma set_getElem?_self {α : Type} (l : List α) (i : ℕ) (a : α)
    (h : l[i]? = some a) : l.set i a = l := by
  apply List.ext_getElem?
  intro n
  by_cases hn : n = i
  · subst hn
    rw [List.getElem?_set_eq_of_lt a (List.getElem?_eq_some.mp h).1, h]
  · rw [List.getElem?_set_ne (by omega)]

/-- C2: for every crop kind and every level from 1 to `maxLevel - 1`,
`get_next_level_price` equals
`plantingPrice * 10 * (levelMultiplier / 2) * level`, reproducing the
halving of the level multiplier. -/
theorem next_level_price_matches_spec_formula (c : Crop) (level : ℕ)
    (h1 : 1 ≤ level) (h2 : level ≤ c.get_max_level - 1) :
    c.get_next_level_price level =
      c.get_planting_price * 10 * (c.level_multiplier / 2) * (level : ℚ) := by
  cases c <;>
    simp [Crop.get_next_level_price, Crop.get_planting_price,
      Crop.level_multiplier] <;>
    ring

/-- Witness for C2 at Wheat, level 3. -/
theorem next_level_price_matches_spec_formula_witness :
    1 ≤ 3 ∧ 3 ≤ Crop.Wheat.get_max_level - 1 ∧
    Crop.Wheat.get_next_level_price 3 =
      Crop.Wheat.get_planting_price * 10 * (Crop.Wheat.level_multiplier / 2) * (3 : ℚ) :=
  ⟨by norm_num, by decide,
    next_level_price_matches_spec_formula .Wheat 3 (by norm_num) (by decide)⟩

/-- C4: `earnings` is the pure function
`payout * (1 + levelMultiplier) ^ level`; its value does not depend on the
planting state or timestamp. -/
theorem earnings_pure_formula (f : Field) :
    f.earnings = f.crop.payout * (1 + f.crop.level_multiplier) ^ f.level ∧
    (∀ ts : Option ℕ, Field.earnings ⟨f.crop, f.level, ts⟩ = f.earnings) :=
  ⟨rfl, fun _ => rfl⟩

/-- C6: `buy_field` fails with `InsufficientFunds` exactly when
`money < get_new_field_price`, leaving the state unchanged; on success it
appends one fresh field (level 1, unplanted) and debits the price. -/
theorem buy_field_spec (s : Farm) (c : Crop) :
    (s.money < c.get_new_field_price →
      s.buy_field c = (.error .InsufficientFunds, s)) ∧
    (c.get_new_field_price ≤ s.money →
      s.buy_field c = (.ok (), { s with fields := s.fields ++ [Field.new c],
                                        money := s.money - c.get_new_field_price })) := by
  refine ⟨fun h => ?_, fun h => ?_⟩
  · simp [Farm.buy_field, h]
  · have h' := not_lt.mpr h
    simp [Farm.buy_field, h']

/-- Witness for C6: a failing and a succeeding purchase of a Wheat field. -/
theorem buy_field_spec_witness :
    Farm.buy_field ⟨"f", 9, []⟩ .Wheat = (.error .InsufficientFunds, ⟨"f", 9, []⟩) ∧
    Farm.buy_field ⟨"f", 20, []⟩ .Wheat = (.ok (), ⟨"f", 10, [Field.new .Wheat]⟩) := by
  constructor
  · exact (buy_field_spec ⟨"f", 9, []⟩ .Wheat).1 (by norm_num [Crop.get_new_field_price])
  · have h := (buy_field_spec ⟨"f", 20, []⟩ .Wheat).2 (by norm_num [Crop.get_new_field_price])
    rw [h]
    simp [Crop.get_new_field_price]
    norm_num

/-- C1 evidence: planting an already-Growing field with sufficient funds
fails with `AlreadyPlanted`, yet the returned farm has money 19 where the
input had 20 — the debit performed before the `plant` call is not rolled
back, so the operation is not atomic. -/
theorem plant_field_already_planted_leaves_partial_debit :
    Farm.plant_field ⟨"f", 20, [⟨.Wheat, 1, some 0⟩]⟩ 0 5 =
      (.error .AlreadyPlanted, ⟨"f", 19, [⟨.Wheat, 1, some 0⟩]⟩) ∧
    (19 : ℚ) ≠ 20 := by
  constructor
  · simp [Farm.plant_field, Field.plant, Field.planted, Crop.get_planting_price]
    norm_num
  · norm_num

/-- C3: harvesting a Growing field at or after `planted_at + grow_time`
succeeds, returns the field's `earnings` at its current level, credits the
money by exactly that amount, and resets the field to Idle. -/
theorem farm_field_ready_spec (s : Farm) (id now ts : ℕ) (f : Field)
    (hf : s.fields[id]? = some f) (hts : f.plant_timestamp = some ts)
    (hready : ts + f.crop.grow_time ≤ now) :
    s.farm_field id now =
      (.ok f.earnings,
        { s with money := s.money + f.earnings,
                 fields := s.fields.set id { f with plant_timestamp := none } }) := by
  have hplanted : f.planted = true := by simp [Field.planted, hts]
  have htime : f.time_to_farm now = 0 := by
    simp [Field.time_to_farm, hts]
    omega
  simp [Farm.farm_field, hf, Field.farm, hplanted, htime]
  rfl

/-- Witness for C3: a Wheat field planted at 0 harvested at maturity. -/
theorem farm_field_ready_spec_witness :
    Farm.farm_field ⟨"f", 20, [⟨.Wheat, 1, some 0⟩]⟩ 0 100000 =
      (.ok (3/2), ⟨"f", 43/2, [⟨.Wheat, 1, none⟩]⟩) := by
  have h := farm_field_ready_spec ⟨"f", 20, [⟨.Wheat, 1, some 0⟩]⟩ 0 100000 0
    ⟨.Wheat, 1, some 0⟩ rfl rfl (by decide)
  rw [h]
  simp [Field.earnings, Crop.payout, Crop.level_multiplier]
  norm_num

/-- C5: harvesting a Growing field before maturity fails with `NotYetReady`,
and harvesting an Idle field fails with `AlreadyFarmed`; both failures leave
the whole farm (money and fields) unchanged. -/
theorem farm_field_fail_spec (s : Farm) (id now : ℕ) (f : Field)
    (hf : s.fields[id]? = some f) :
    (∀ ts, f.plant_timestamp = some ts → ts ≤ now → now < ts + f.crop.grow_time →
      s.farm_field id now = (.error .NotYetReady, s)) ∧
    (f.plant_timestamp = none →
      s.farm_field id now = (.error .AlreadyFarmed, s)) := by
  constructor
  · intro ts hts h1 h2
    have hplanted : f.planted = true := by simp [Field.planted, hts]
    have htime : 0 < f.time_to_farm now := by
      simp [Field.time_to_farm, hts]
      omega
    simp [Farm.farm_field, hf, Field.farm, hplanted, htime]
  · intro hts
    have hplanted : f.planted = false := by simp [Field.planted, hts]
    simp [Farm.farm_field, hf, Field.farm, hplanted]

/-- Witness for C5: harvesting too early, then harvesting an Idle field. -/
theorem farm_field_fail_spec_witness :
    Farm.farm_field ⟨"f", 20, [⟨.Wheat, 1, some 0⟩]⟩ 0 50 =
      (.error .NotYetReady, ⟨"f", 20, [⟨.Wheat, 1, some 0⟩]⟩) ∧
    Farm.farm_field ⟨"f", 20, [⟨.Wheat, 1, none⟩]⟩ 0 50 =
      (.error .AlreadyFarmed, ⟨"f", 20, [⟨.Wheat, 1, none⟩]⟩) :=
  ⟨(farm_field_fail_spec ⟨"f", 20, [⟨.Wheat, 1, some 0⟩]⟩ 0 50 ⟨.Wheat, 1, some 0⟩
      rfl).1 0 rfl (by norm_num) (by decide),
   (farm_field_fail_spec ⟨"f", 20, [⟨.Wheat, 1, none⟩]⟩ 0 50 ⟨.Wheat, 1, none⟩
      rfl).2 rfl⟩

/-- Every level-up price in the catalog is nonnegative. -/
lemma next_level_price_nonneg (c : Crop) (lev : ℕ) :
    0 ≤ c.get_next_level_price lev := by
  cases c <;>
    simp [Crop.get_next_level_price, Crop.get_planting_price,
      Crop.level_multiplier]

/-- The total cost of a run of level-ups is nonnegative. -/
lemma level_up_cost_nonneg (c : Crop) (lev k : ℕ) :
    0 ≤ level_up_cost c lev k := by
  induction k generalizing lev with
  | zero => simp [level_up_cost]
  | succ k ih =>
    have h1 := next_level_price_nonneg c lev
    have h2 := ih (lev + 1)
    simp only [level_up_cost]
    linarith

/-- Peeling the last step off a run of level-ups. -/
lemma level_up_cost_succ (c : Crop) (lev k : ℕ) :
    level_up_cost c lev (k + 1) =
      level_up_cost c lev k + c.get_next_level_price (lev + k) := by
  induction k generalizing lev with
  | zero => simp [level_up_cost]
  | succ k ih =>
    have harith : lev + 1 + k = lev + (k + 1) := by omega
    have h1 : level_up_cost c lev (k + 1 + 1) =
        c.get_next_level_price lev + level_up_cost c (lev + 1) (k + 1) := rfl
    have h2 : level_up_cost c lev (k + 1) =
        c.get_next_level_price lev + level_up_cost c (lev + 1) k := rfl
    rw [h1, ih (lev + 1), h2, harith]
    ring

/-- The total cost of a run of level-ups is monotone in its length. -/
lemma level_up_cost_mono (c : Crop) (lev : ℕ) {j k : ℕ} (h : j ≤ k) :
    level_up_cost c lev j ≤ level_up_cost c lev k := by
  induction k with
  | zero =>
    have hj : j = 0 := by omega
    simp [hj]
  | succ k ih =>
    by_cases hj : j = k + 1
    · simp [hj]
    · have h1 := ih (by omega)
      have h2 := next_level_price_nonneg c (lev + k)
      rw [level_up_cost_succ]
      linarith

/-- Every crop's level cap is at least 1. -/
lemma get_max_level_pos (c : Crop) : 1 ≤ c.get_max_level := by
  cases c <;> decide

/-- A successful `level_up_field` call: below the cap and with sufficient
funds, it increments the level by 1 and debits the price evaluated at the
pre-increment level. -/
lemma level_up_field_ok (s : Farm) (id : ℕ) (f : Field)
    (hf : s.fields[id]? = some f) (hlt : f.level < f.crop.get_max_level)
    (hm : f.crop.get_next_level_price f.level ≤ s.money) :
    s.level_up_field id =
      (.ok (), { s with fields := s.fields.set id { f with level := f.level + 1 },
                        money := s.money - f.crop.get_next_level_price f.level }) := by
  have h1 : ¬ f.crop.get_max_level ≤ f.level := not_le.mpr hlt
  have h2 : ¬ s.money < f.crop.get_next_level_price f.level := not_lt.mpr hm
  simp [Farm.level_up_field, hf, Field.level_up_price, Field.level_up, h1, h2]

/-- A `level_up_field` call at the cap fails with `MaxLevelReached` and
leaves the farm unchanged, whatever the money balance. -/
lemma level_up_field_max (s : Farm) (id : ℕ) (f : Field)
    (hf : s.fields[id]? = some f) (hmax : f.crop.get_max_level ≤ f.level) :
    s.level_up_field id = (.error .MaxLevelReached, s) := by
  simp [Farm.level_up_field, hf, Field.level_up_price, hmax]

/-- State after `k` affordable level-ups below the cap: the addressed field
has gained `k` levels and the money has dropped by the total cost. -/
lemma level_up_iter_spec (s : Farm) (id : ℕ) (f : Field)
    (hf : s.fields[id]? = some f) :
    ∀ k, f.level + k ≤ f.crop.get_max_level →
      level_up_cost f.crop f.level k ≤ s.money →
      level_up_iter s id k =
        { s with fields := s.fields.set id { f with level := f.level + k },
                 money := s.money - level_up_cost f.crop f.level k } := by
  intro k
  induction k with
  | zero =>
    intro _ _
    have h0 : s.fields.set id f = s.fields := set_getElem?_self _ _ _ hf
    simp [level_up_iter, level_up_cost, h0]
  | succ k ih =>
    intro hle hcost
    have hlt : f.level + k < f.crop.get_max_level := by omega
    have hck : level_up_cost f.crop f.level k ≤ s.money :=
      le_trans (level_up_cost_mono _ _ (Nat.le_succ k)) hcost
    have hIH := ih (by omega) hck
    have hlen : id < s.fields.length := (List.getElem?_eq_some.mp hf).1
    have hf' : (s.fields.set id { f with level := f.level + k })[id]? =
        some { f with level := f.level + k } :=
      List.getElem?_set_eq_of_lt _ (by simpa using hlen)
    have hprice : f.crop.get_next_level_price (f.level + k) ≤
        s.money - level_up_cost f.crop f.level k := by
      have := hcost
      rw [level_up_cost_succ] at this
      linarith
    have hstep := level_up_field_ok
      { s with fields := s.fields.set id { f with level := f.level + k },
               money := s.money - level_up_cost f.crop f.level k }
      id { f with level := f.level + k } hf' hlt hprice
    rw [level_up_iter, hIH, hstep]
    simp only [List.set_set, level_up_cost_succ, sub_sub]
    rfl

/-- C7: from level 1 with funds covering the whole run, `level_up_field`
succeeds on each of the first `maxLevel - 1` attempts — each success debits
`get_next_level_price` at the pre-increment level and raises the level by
exactly 1 — and every later attempt fails with `MaxLevelReached`, leaving
the farm (level and money) unchanged regardless of the balance. -/
theorem level_up_field_sequence (s : Farm) (id : ℕ) (f : Field)
    (hf : s.fields[id]? = some f) (hl : f.level = 1)
    (hm : level_up_cost f.crop 1 (f.crop.get_max_level - 1) ≤ s.money) :
    (∀ j, j < f.crop.get_max_level - 1 →
      (level_up_iter s id j).fields[id]? = some { f with level := 1 + j } ∧
      (level_up_iter s id j).money = s.money - level_up_cost f.crop 1 j ∧
      Farm.level_up_field (level_up_iter s id j) id =
        (.ok (), { level_up_iter s id j with
            fields := (level_up_iter s id j).fields.set id { f with level := 1 + j + 1 },
            money := (level_up_iter s id j).money -
              f.crop.get_next_level_price (1 + j) })) ∧
    (∀ k, f.crop.get_max_level - 1 ≤ k →
      level_up_iter s id k = level_up_iter s id (f.crop.get_max_level - 1) ∧
      Farm.level_up_field (level_up_iter s id k) id =
        (.error .MaxLevelReached, level_up_iter s id k)) ∧
    (∀ (s' : Farm) (g : Field), s'.fields[id]? = some g →
      g.crop.get_max_level ≤ g.level →
      s'.level_up_field id = (.error .MaxLevelReached, s')) := by
  have hmax1 : 1 ≤ f.crop.get_max_level := get_max_level_pos f.crop
  have hlen : id < s.fields.length := (List.getElem?_eq_some.mp hf).1
  have hspec : ∀ j, j ≤ f.crop.get_max_level - 1 →
      level_up_iter s id j =
        { s with fields := s.fields.set id { f with level := 1 + j },
                 money := s.money - level_up_cost f.crop 1 j } := by
    intro j hj
    have h := level_up_iter_spec s id f hf j (by omega) (by
      rw [hl]
      exact le_trans (level_up_cost_mono _ _ hj) hm)
    rw [hl] at h
    exact h
  have hfieldj : ∀ j, j ≤ f.crop.get_max_level - 1 →
      (level_up_iter s id j).fields[id]? = some { f with level := 1 + j } := by
    intro j hj
    rw [hspec j hj]
    exact List.getElem?_set_eq_of_lt _ (by simpa using hlen)
  refine ⟨fun j hj => ?_, ?_, fun s' g hg hgmax => level_up_field_max s' id g hg hgmax⟩
  · refine ⟨hfieldj j (by omega), ?_, ?_⟩
    · rw [hspec j (by omega)]
    · have hprice : f.crop.get_next_level_price (1 + j) ≤
          (level_up_iter s id j).money := by
        rw [hspec j (by omega)]
        have h1 : level_up_cost f.crop 1 (j + 1) ≤
            level_up_cost f.crop 1 (f.crop.get_max_level - 1) :=
          level_up_cost_mono _ _ (by omega)
        rw [level_up_cost_succ] at h1
        simp only
        linarith
      exact level_up_field_ok _ id { f with level := 1 + j }
        (hfieldj j (by omega)) (by simpa using (by omega : 1 + j < f.crop.get_max_level))
        hprice
  · have hbase : Farm.level_up_field
        (level_up_iter s id (f.crop.get_max_level - 1)) id =
        (.error .MaxLevelReached, level_up_iter s id (f.crop.get_max_level - 1)) := by
      apply level_up_field_max _ id { f with level := 1 + (f.crop.get_max_level - 1) }
        (hfieldj _ le_rfl)
      simp only
      omega
    intro k hk
    induction k with
    | zero =>
      have h0 : f.crop.get_max_level - 1 = 0 := by omega
      rw [h0] at hbase ⊢
      exact ⟨rfl, hbase⟩
    | succ k ih =>
      by_cases hk' : f.crop.get_max_level - 1 = k + 1
      · rw [hk'] at hbase ⊢
        exact ⟨rfl, hbase⟩
      · have hk2 : f.crop.get_max_level - 1 ≤ k := by omega
        obtain ⟨heq, hfail⟩ := ih hk2
        have hnext : level_up_iter s id (k + 1) = level_up_iter s id k := by
          rw [level_up_iter, hfail]
        rw [hnext]
        exact ⟨heq, hfail⟩

/-- The harvest value of any field is nonnegative. -/
lemma earnings_nonneg (f : Field) : 0 ≤ f.earnings := by
  cases hc : f.crop <;>
    simp [Field.earnings, Crop.payout, Crop.level_multiplier, hc] <;>
    positivity

/-- Every operation preserves a nonnegative balance: funds are checked
before any debit, and harvests only credit. -/
lemma apply_op_money_nonneg (s : Farm) (op : Op) (h : 0 ≤ s.money) :
    0 ≤ (apply_op s op).money := by
  cases op with
  | buy c =>
    by_cases hm : s.money < c.get_new_field_price
    · simpa [apply_op, Farm.buy_field, hm] using h
    · have hm' := not_lt.mp hm
      simp [apply_op, Farm.buy_field, hm]
      linarith
  | plant id now =>
    cases hfi : s.fields[id]? with
    | none => simpa [apply_op, Farm.plant_field, hfi] using h
    | some f =>
      by_cases hm : s.money < f.crop.get_planting_price
      · simpa [apply_op, Farm.plant_field, hfi, hm] using h
      · have hm' := not_lt.mp hm
        by_cases hp : f.planted
        · simp [apply_op, Farm.plant_field, hfi, hm, Field.plant, hp]
          linarith
        · simp [apply_op, Farm.plant_field, hfi, hm, Field.plant, hp]
          linarith
  | harvest id now =>
    cases hfi : s.fields[id]? with
    | none => simpa [apply_op, Farm.farm_field, hfi] using h
    | some f =>
      cases hr : f.farm now with
      | error e => simpa [apply_op, Farm.farm_field, hfi, hr] using h
      | ok f' =>
        have he := earnings_nonneg f'
        simp [apply_op, Farm.farm_field, hfi, hr]
        linarith
  | levelUp id =>
    cases hfi : s.fields[id]? with
    | none => simpa [apply_op, Farm.level_up_field, hfi] using h
    | some f =>
      by_cases hmax : f.crop.get_max_level ≤ f.level
      · simpa [apply_op, Farm.level_up_field, hfi, Field.level_up_price, hmax] using h
      · by_cases hm : s.money < f.crop.get_next_level_price f.level
        · simpa [apply_op, Farm.level_up_field, hfi, Field.level_up_price, hmax, hm]
            using h
        · have hm' := not_lt.mp hm
          simp [apply_op, Farm.level_up_field, hfi, Field.level_up_price,
            Field.level_up, hmax, hm]
          linarith

/-- C8: starting from a fresh farm (money 20), the balance is nonnegative
after any sequence of operations, and a nonnegative balance is preserved by
every single operation. -/
theorem money_nonneg_invariant :
    (∀ (name : String) (ops : List Op), 0 ≤ (run_ops (Farm.new name) ops).money) ∧
    (∀ (s : Farm) (op : Op), 0 ≤ s.money → 0 ≤ (apply_op s op).money) := by
  have hrun : ∀ (ops : List Op) (s : Farm), 0 ≤ s.money →
      0 ≤ (run_ops s ops).money := by
    intro ops
    induction ops with
    | nil => exact fun s h => h
    | cons op ops ih => exact fun s h => ih _ (apply_op_money_nonneg s op h)
  exact ⟨fun name ops => hrun ops _ (by norm_num [Farm.new]),
    apply_op_money_nonneg⟩

/-- Witness for C8: a concrete buy-plant-harvest run and a single step. -/
theorem money_nonneg_invariant_witness :
    0 ≤ (run_ops (Farm.new "w") [.buy .Wheat, .plant 0 0, .harvest 0 100000]).money ∧
    (0 : ℚ) ≤ (Farm.mk "w" 5 []).money ∧
    0 ≤ (apply_op (Farm.mk "w" 5 []) (.buy .Carrot)).money :=
  ⟨money_nonneg_invariant.1 "w" _, by norm_num,
    money_nonneg_invariant.2 _ _ (by norm_num)⟩

/-- C9 counterexample: `Field::farm` takes no timestamp argument in the
source (its signature is `farm(&mut self)`); it reads the clock itself via
`util::timestamp()`, modelled by the `now` parameter. Two calls with the
identical field state and identical (absent) explicit arguments yield
different results when the internal clock reads differ, and likewise
`Farm::plant_field` stores its internal clock read in the field, so the
final state is not a function of the farm state and explicit arguments. -/
theorem farm_depends_on_internal_clock_read :
    Field.farm ⟨.Wheat, 1, some 0⟩ 0 ≠ Field.farm ⟨.Wheat, 1, some 0⟩ 100000 ∧
    (Farm.plant_field ⟨"f", 20, [⟨.Wheat, 1, none⟩]⟩ 0 0).2.fields ≠
      (Farm.plant_field ⟨"f", 20, [⟨.Wheat, 1, none⟩]⟩ 0 7).2.fields := by
  constructor
  · simp [Field.farm, Field.planted, Field.time_to_farm, Crop.grow_time,
      seconds_to_millis]
  · simp [Farm.plant_field, Crop.get_planting_price, Field.plant, Field.planted]

/-- C9 amended: `Field::plant` and `Field::time_to_farm` do receive the
timestamp explicitly, but `Field::farm` and `Farm::plant_field` read the
clock internally; including that single internal clock read among the
inputs, each operation is deterministic — in particular the harvest outcome
depends on the clock read only through the maturity comparison. -/
theorem farm_deterministic_given_clock_snapshot (s : Farm) (id : ℕ) (f : Field)
    (ts now₁ now₂ : ℕ) (hf : s.fields[id]? = some f)
    (hts : f.plant_timestamp = some ts) (h1 : ts ≤ now₁) (h2 : ts ≤ now₂)
    (hiff : ts + f.crop.grow_time ≤ now₁ ↔ ts + f.crop.grow_time ≤ now₂) :
    f.farm now₁ = f.farm now₂ ∧
    s.farm_field id now₁ = s.farm_field id now₂ := by
  have hplanted : f.planted = true := by simp [Field.planted, hts]
  have heq : f.farm now₁ = f.farm now₂ := by
    by_cases hc : ts + f.crop.grow_time ≤ now₁
    · have hc2 := hiff.mp hc
      have e1 : f.time_to_farm now₁ = 0 := by
        simp [Field.time_to_farm, hts]
        omega
      have e2 : f.time_to_farm now₂ = 0 := by
        simp [Field.time_to_farm, hts]
        omega
      simp [Field.farm, hplanted, e1, e2]
    · have hc2 : ¬ ts + f.crop.grow_time ≤ now₂ := fun hx => hc (hiff.mpr hx)
      have e1 : 0 < f.time_to_farm now₁ := by
        simp [Field.time_to_farm, hts]
        omega
      have e2 : 0 < f.time_to_farm now₂ := by
        simp [Field.time_to_farm, hts]
        omega
      simp [Field.farm, hplanted, e1, e2]
  exact ⟨heq, by simp only [Farm.farm_field, hf, heq]⟩

/-- Witness for C9 amended: two distinct pre-maturity clock reads give the
same harvest outcome. -/
theorem farm_deterministic_given_clock_snapshot_witness :
    Field.farm ⟨.Wheat, 1, some 0⟩ 10 = Field.farm ⟨.Wheat, 1, some 0⟩ 20 ∧
    Farm.farm_field ⟨"f", 20, [⟨.Wheat, 1, some 0⟩]⟩ 0 10 =
      Farm.farm_field ⟨"f", 20, [⟨.Wheat, 1, some 0⟩]⟩ 0 20 :=
  farm_deterministic_given_clock_snapshot ⟨"f", 20, [⟨.Wheat, 1, some 0⟩]⟩ 0
    ⟨.Wheat, 1, some 0⟩ 0 10 20 rfl rfl (by norm_num) (by norm_num) (by decide)

/-- The only error `Field.plant` can raise is `AlreadyPlanted`. -/
lemma plant_error_cases (f : Field) (now : ℕ) (e : GameError)
    (h : f.plant now = .error e) : e = .AlreadyPlanted := by
  simp only [Field.plant] at h
  split at h <;> simp_all

/-- The only errors `Field.farm` can raise are `AlreadyFarmed` and
`NotYetReady`. -/
lemma farm_error_cases (f : Field) (now : ℕ) (e : GameError)
    (h : f.farm now = .error e) : e = .AlreadyFarmed ∨ e = .NotYetReady := by
  simp only [Field.farm] at h
  split at h <;> [skip; split at h] <;> simp_all

/-- The only error `Field.level_up` can raise is `MaxLevelReached`. -/
lemma level_up_error_cases (f : Field) (e : GameError)
    (h : f.level_up = .error e) : e = .MaxLevelReached := by
  simp only [Field.level_up] at h
  split at h <;> simp_all

/-- The only error `Field.level_up_price` can raise is `MaxLevelReached`. -/
lemma level_up_price_error_cases (f : Field) (e : GameError)
    (h : f.level_up_price = .error e) : e = .MaxLevelReached := by
  simp only [Field.level_up_price] at h
  split at h <;> simp_all

/-- C10: no operation of `Farm` or `Field` ever returns `TooManyFields`,
and with sufficient funds `buy_field` succeeds whatever the current field
count — the collection is unbounded. -/
theorem no_too_many_fields (s : Farm) (c : Crop) (id now : ℕ) (f : Field) :
    (s.buy_field c).1 ≠ .error .TooManyFields ∧
    (s.plant_field id now).1 ≠ .error .TooManyFields ∧
    (s.farm_field id now).1 ≠ .error .TooManyFields ∧
    (s.level_up_field id).1 ≠ .error .TooManyFields ∧
    f.plant now ≠ .error .TooManyFields ∧
    f.farm now ≠ .error .TooManyFields ∧
    f.level_up ≠ .error .TooManyFields ∧
    f.level_up_price ≠ .error .TooManyFields ∧
    (c.get_new_field_price ≤ s.money → (s.buy_field c).1 = .ok ()) := by
  refine ⟨?_, ?_, ?_, ?_, fun h => by simpa using plant_error_cases f now _ h,
    fun h => by rcases farm_error_cases f now _ h with h' | h' <;> simp_all,
    fun h => by simpa using level_up_error_cases f _ h,
    fun h => by simpa using level_up_price_error_cases f _ h, fun hm => ?_⟩
  · simp only [Farm.buy_field]
    split <;> simp
  · simp only [Farm.plant_field]
    split
    · simp
    · split
      · simp
      · split
        · rename_i e heq
          have := plant_error_cases _ _ _ heq
          simp_all
        · simp
  · simp only [Farm.farm_field]
    split
    · simp
    · split
      · rename_i e heq
        have := farm_error_cases _ _ _ heq
        rcases this with h' | h' <;> simp_all
      · simp
  · simp only [Farm.level_up_field]
    split
    · simp
    · split
      · rename_i e heq
        have := level_up_price_error_cases _ _ heq
        simp_all
      · split
        · simp
        · split
          · rename_i e heq
            have := level_up_error_cases _ _ heq
            simp_all
          · simp
  · simp [Farm.buy_field, not_lt.mpr hm]

/-- Witness for C10: a farm that already owns three fields buys a fourth. -/
theorem no_too_many_fields_witness :
    (Farm.buy_field ⟨"f", 20, [Field.new .Wheat, Field.new .Wheat,
        Field.new .Wheat]⟩ .Wheat).1 = .ok () ∧
    (Farm.buy_field ⟨"f", 20, [Field.new .Wheat, Field.new .Wheat,
        Field.new .Wheat]⟩ .Wheat).1 ≠ .error .TooManyFields :=
  ⟨(no_too_many_fields ⟨"f", 20, [Field.new .Wheat, Field.new .Wheat,
      Field.new .Wheat]⟩ .Wheat 0 0 (Field.new .Wheat)).2.2.2.2.2.2.2.2
      (by norm_num [Crop.get_new_field_price]),
   (no_too_many_fields ⟨"f", 20, [Field.new .Wheat, Field.new .Wheat,
      Field.new .Wheat]⟩ .Wheat 0 0 (Field.new .Wheat)).1⟩

/-- Witness for C7: a Wheat field at level 1 with ample funds; the first
attempt succeeds with the exact debit, and the attempt after the fourth
success fails with `MaxLevelReached`. -/
theorem level_up_field_sequence_witness :
    Farm.level_up_field (level_up_iter ⟨"w", 1000, [⟨.Wheat, 1, none⟩]⟩ 0 0) 0 =
      (.ok (), { level_up_iter ⟨"w", 1000, [⟨.Wheat, 1, none⟩]⟩ 0 0 with
          fields := (level_up_iter ⟨"w", 1000, [⟨.Wheat, 1, none⟩]⟩ 0 0).fields.set 0
            ⟨.Wheat, 1 + 0 + 1, none⟩,
          money := (level_up_iter ⟨"w", 1000, [⟨.Wheat, 1, none⟩]⟩ 0 0).money -
            Crop.Wheat.get_next_level_price (1 + 0) }) ∧
    Farm.level_up_field (level_up_iter ⟨"w", 1000, [⟨.Wheat, 1, none⟩]⟩ 0 4) 0 =
      (.error .MaxLevelReached, level_up_iter ⟨"w", 1000, [⟨.Wheat, 1, none⟩]⟩ 0 4) := by
  have hm : level_up_cost Crop.Wheat 1 (Crop.Wheat.get_max_level - 1) ≤
      (1000 : ℚ) := by
    simp [level_up_cost, Crop.get_next_level_price, Crop.get_planting_price,
      Crop.level_multiplier, Crop.get_max_level]
    norm_num
  have h := level_up_field_sequence ⟨"w", 1000, [⟨.Wheat, 1, none⟩]⟩ 0
    ⟨.Wheat, 1, none⟩ rfl rfl hm
  exact ⟨(h.1 0 (by decide)).2.2, (h.2.1 4 (by decide)).2⟩

end CliFarm
